import Mathlib

/-!
Shallow embedding of `src/rotate-skiplist-cpp/rotate-skiplist.h`
(namespace `rotate_skiplist`): the thread registry (`ThreadState`),
the cache-line-aligned allocation macro, and a spec-level model of the
skip list `Find` operation that the header declares but does not define.

Pointers are modelled as indices into an explicit heap (a `List` of
thread-state records); `nullptr` is `Option.none`.  The C unsigned long
arithmetic of the allocation macro is modelled on `Nat` with explicit
`% 2 ^ 64`.  Loops are modelled with explicit fuel so that every
definition is a total, executable Lean function; running out of fuel is
reported as a distinct outcome and stands for non-termination of the
source loop within that many iterations.
-/

namespace RotateSkiplist

/-- CACHE_LINE_SIZE, as in the header (64 bytes). -/
def CACHE_LINE_SIZE : Nat := 64

/-- The modulus of C `unsigned long` arithmetic on the target (64-bit). -/
def ULONG_MOD : Nat := 2 ^ 64

/-- The CACHE_ALIGNED_ALLOC macro, as a function of the address returned by
`malloc(s + CACHE_LINE_SIZE * 2)`:
`((unsigned long)malloc(...) + CACHE_LINE_SIZE - 1) & ~(CACHE_LINE_SIZE - 1)`.
The complement of `CACHE_LINE_SIZE - 1` in 64-bit unsigned arithmetic is
`2 ^ 64 - CACHE_LINE_SIZE`.  A failed `malloc` returns the null pointer,
i.e. address `0`. -/
def CACHE_ALIGNED_ALLOC (addr : Nat) : Nat :=
  ((addr + (CACHE_LINE_SIZE - 1)) % ULONG_MOD) &&& (ULONG_MOD - CACHE_LINE_SIZE)

/-- One `ThreadState` object (the per-slot fields of the C++ class).
`owned` is the `std::atomic_flag`; `next_p` and `gc_p` are pointers,
modelled as optional heap indices. -/
structure ThreadState where
  id : Nat
  owned : Bool
  next_p : Option Nat
  gc_p : Option Nat
deriving Repr, DecidableEq

/-- The global state seen by one calling thread: the heap of allocated
`ThreadState` objects (addressed by index), the static list head
`thread_state_head_p`, and the calling thread's pthread thread-local
binding (`pthread_getspecific(thread_state_key)`), `none` when unset. -/
structure GlobalState where
  heap : List ThreadState
  thread_state_head_p : Option Nat
  tls : Option Nat
deriving Repr, DecidableEq

/-- `ThreadState::ClearOwnedFlag`: the pthread destructor callback.  It
receives the slot bound to the exiting thread and clears its `owned`
flag; it touches nothing else. -/
def ClearOwnedFlag (s : ThreadState) : ThreadState :=
  { s with owned := false }

/-- `ThreadState::EnterCritical`: the body in the header is empty, so the
function is the identity on the thread state and the global state. -/
def EnterCritical (s : ThreadState) (g : GlobalState) : ThreadState × GlobalState :=
  (s, g)

/-- The static registry globals touched by `ThreadState::Init`. -/
structure RegistryGlobals where
  next_id : Nat
  thread_state_head_p : Option Nat
  inited : Bool
deriving Repr, DecidableEq

/-- Outcome of `ThreadState::Init`: the debug assertion
`assert(inited == false)` fires, or the process exits via
`perror(...); exit(1)`, or initialization completes with the resulting
globals. -/
inductive InitOutcome where
  | assertionFailure
  | fatalExit (code : Nat)
  | ok (g : RegistryGlobals)
deriving Repr, DecidableEq

/-- `ThreadState::Init`, as a function of whether `pthread_key_create`
succeeds (`keyCreateOk`) and of the globals on entry.  The source:
asserts `inited == false`; sets `next_id = 0` and
`thread_state_head_p = nullptr`; on `pthread_key_create` failure calls
`perror` and `exit(1)`; otherwise sets `inited = true`. -/
def Init (keyCreateOk : Bool) (g : RegistryGlobals) : InitOutcome :=
  if g.inited then
    .assertionFailure
  else
    if keyCreateOk then
      .ok { next_id := 0, thread_state_head_p := none, inited := true }
    else
      .fatalExit 1

/-- Outcome of the claim-walk loop inside `GetCurrentThreadState`:
a slot was claimed, or the loop condition `thread_state_p != nullptr`
became false, or the fuel ran out (the source loop did not terminate
within `fuel` iterations). -/
inductive WalkOutcome where
  | claimed (p : Nat)
  | listExhausted
  | outOfFuel
  | stuck
deriving Repr, DecidableEq

/-- The `while (thread_state_p != nullptr)` loop of
`GetCurrentThreadState`, exactly as written in the source: each
iteration performs `owned.test_and_set()` on the slot `cur` points to
and, on failure, repeats WITHOUT advancing `cur` (the source loop body
contains no `thread_state_p = thread_state_p->next_p`).  `tas` counts
the `test_and_set` operations performed.  `stuck` models a dereference
of a dangling pointer. -/
def walkLoop : Nat → List ThreadState → Option Nat → Nat →
    WalkOutcome × List ThreadState × Nat
  | 0, heap, _, tas => (.outOfFuel, heap, tas)
  | fuel + 1, heap, cur, tas =>
    match cur with
    | none => (.listExhausted, heap, tas)
    | some p =>
      match heap[p]? with
      | none => (.stuck, heap, tas)
      | some slot =>
        let acquired := !slot.owned
        let heap1 := heap.set p { slot with owned := true }
        if acquired then (.claimed p, heap1, tas + 1)
        else walkLoop fuel heap1 cur (tas + 1)

/-- Result of `GetCurrentThreadState` for the calling thread: the
function executed a `return` with the given slot pointer, or control
fell off the end of the function body with no `return` (the allocation
path in the source allocates and then ends), or the claim loop did not
terminate within the fuel, or a dangling pointer was dereferenced. -/
inductive AcquireOutcome where
  | returned (p : Nat)
  | fellOff
  | outOfFuel
  | stuck
deriving Repr, DecidableEq

/-- `ThreadState::GetCurrentThreadState`, as written in the source.
`fresh` is the (uninitialized) memory content of the slot produced by
`CACHE_ALIGNED_ALLOC(sizeof(ThreadState))` on the allocation path.
Returns the outcome, the resulting global state, and the number of
`test_and_set` operations performed.  Note the source allocation path
neither links the fresh slot into the list, nor claims it, nor calls
`pthread_setspecific`, nor returns it: the function body simply ends. -/
def GetCurrentThreadState (fuel : Nat) (fresh : ThreadState) (st : GlobalState) :
    AcquireOutcome × GlobalState × Nat :=
  match st.tls with
  | some p => (.returned p, st, 0)
  | none =>
    match walkLoop fuel st.heap st.thread_state_head_p 0 with
    | (.claimed p, heap1, tas) =>
        (.returned p, { st with heap := heap1, tls := some p }, tas)
    | (.listExhausted, heap1, tas) =>
        (.fellOff, { st with heap := heap1 ++ [fresh] }, tas)
    | (.outOfFuel, heap1, tas) => (.outOfFuel, { st with heap := heap1 }, tas)
    | (.stuck, heap1, tas) => (.stuck, { st with heap := heap1 }, tas)

/-- A concrete slot that is owned by some thread; the failing input for
the claim-walk loop. -/
def ownedSlot : ThreadState :=
  { id := 0, owned := true, next_p := none, gc_p := none }

/-- A concrete global state whose slot list holds exactly one slot,
already owned, and whose calling thread has no thread-local binding. -/
def ownedHeadState : GlobalState :=
  { heap := [ownedSlot], thread_state_head_p := some 0, tls := none }

/-- A concrete fresh (uninitialized) slot used for the allocation path. -/
def freshSlot : ThreadState :=
  { id := 0, owned := false, next_p := none, gc_p := none }

end RotateSkiplist

namespace RotateSkiplist

/-!  Spec-level model of the skip-list `Find` operation.  The header
declares the `RotateSkiplist` class but its body contains no members
beyond type aliases; `Find` is modelled from the spec. -/

/-- One bottom-level skip-list node: key, value and the logical-deletion
mark of its lowest-level pointer. -/
structure SkipNode where
  key : Nat
  value : Nat
  marked : Bool
deriving Repr, DecidableEq

/-- Modelled from the spec: the source `RotateSkiplist` class body
declares no `Find` (or any other member function), so the operation is
missing from the code.  Per the spec, `Find(key)` walks forward along
the bottom level while the next key is less than the target, skipping
marked nodes, and returns the value of the node whose key equals the
target and is unmarked, else not-found (`none`). -/
def Find (target : Nat) : List SkipNode → Option Nat
  | [] => none
  | n :: rest =>
    if n.marked then Find target rest
    else if n.key < target then Find target rest
    else if n.key = target then some n.value
    else none

/-- The spec invariant on the bottom level: the keys of the logically
present (unmarked) nodes are strictly increasing along the chain. -/
def sortedUnmarked (l : List SkipNode) : Prop :=
  List.Pairwise (fun a b => a.key < b.key) (l.filter (fun n => !n.marked))

instance (l : List SkipNode) : Decidable (sortedUnmarked l) := by
  unfold sortedUnmarked
  infer_instance

/-!  Trace model for the slot-ownership discipline.  A slot's `owned`
flag is an `std::atomic_flag`; a claim is the atomic
`owned.test_and_set()` in `GetCurrentThreadState` (successful exactly
when the previous value was clear), a release is the `owned.clear()` in
`ClearOwnedFlag`.  Each atomic operation is one step of the trace; the
`owner` field is ghost state recording which thread last claimed
successfully. -/

/-- One atomic event on a single slot's `owned` flag. -/
inductive SlotEvent where
  | claim (tid : Nat)
  | release
deriving Repr, DecidableEq

/-- A slot's flag together with ghost owner information. -/
structure SlotState where
  owned : Bool
  owner : Option Nat
deriving Repr, DecidableEq

/-- Apply one atomic event.  A claim performs `test_and_set`: the flag
becomes set and the claim succeeds exactly when the old value was
clear (`ownership_acquired = !owned.test_and_set()` in the source); a
release clears the flag. -/
def applyEvent (s : SlotState) (e : SlotEvent) : SlotState × Bool :=
  match e with
  | .claim t =>
      ({ owned := true, owner := if s.owned then s.owner else some t }, !s.owned)
  | .release => ({ owned := false, owner := none }, false)

/-- Run a trace of events from a slot state. -/
def runEvents (s : SlotState) : List SlotEvent → SlotState
  | [] => s
  | e :: es => runEvents (applyEvent s e).1 es

/-- The thread ids whose claims succeed along a trace. -/
def successfulClaims (s : SlotState) : List SlotEvent → List Nat
  | [] => []
  | e :: es =>
    let res := applyEvent s e
    (match e, res.2 with
     | .claim t, true => [t]
     | _, _ => []) ++ successfulClaims res.1 es

/-- A concrete bottom-level list used as evaluation input: unmarked 3 and 8,
and a logically deleted (marked) 5. -/
def demoList : List SkipNode :=
  [{ key := 3, value := 30, marked := false },
   { key := 5, value := 50, marked := true },
   { key := 8, value := 80, marked := false }]

end RotateSkiplist

namespace RotateSkiplist

/-!  ## Helper lemmas -/

/-- On a list whose head slot is already owned, each iteration of the
source walk loop performs one failing `test_and_set` and repeats with
the SAME pointer, so the loop consumes all its fuel without result. -/
theorem walkLoop_ownedHead (fuel : Nat) : ∀ tas : Nat,
    walkLoop fuel [ownedSlot] (some 0) tas = (.outOfFuel, [ownedSlot], tas + fuel) := by
  induction fuel with
  | zero => intro tas; rfl
  | succ n ih =>
    intro tas
    have step : walkLoop (n + 1) [ownedSlot] (some 0) tas
        = walkLoop n [ownedSlot] (some 0) (tas + 1) := rfl
    rw [step, ih (tas + 1)]
    have h : tas + 1 + n = tas + (n + 1) := by omega
    rw [h]

/-- Clearing the low six bits of a 64-bit value rounds it down to a
multiple of 64. -/
theorem land_align (x : Nat) (hx : x < 2 ^ 64) :
    x &&& (2 ^ 64 - 64) = 64 * (x / 64) := by
  have hmask : (2 : Nat) ^ 64 - 64 = (2 ^ 58 - 1) <<< 6 := by
    rw [Nat.shiftLeft_eq]
    norm_num
  have hdiv : 64 * (x / 64) = (x >>> 6) <<< 6 := by
    rw [Nat.shiftRight_eq_div_pow, Nat.shiftLeft_eq]
    norm_num
    omega
  rw [hmask, hdiv]
  apply Nat.eq_of_testBit_eq
  intro i
  rw [Nat.testBit_and, Nat.testBit_shiftLeft, Nat.testBit_shiftLeft,
      Nat.testBit_shiftRight, Nat.testBit_two_pow_sub_one]
  by_cases h6 : 6 ≤ i
  · by_cases h64 : i < 64
    · have h58 : i - 6 < 58 := by omega
      have h66 : 6 + (i - 6) = i := by omega
      simp [h6, h58, h66]
    · have hbit : x.testBit i = false := by
        apply Nat.testBit_lt_two_pow
        calc x < 2 ^ 64 := hx
        _ ≤ 2 ^ i := Nat.pow_le_pow_right (by norm_num) (by omega)
      have h66 : 6 + (i - 6) = i := by omega
      simp [hbit, h66]
  · simp [h6]

/-- Characterization of the allocation macro below the 64-bit wrap:
it rounds `addr + 63` down to a multiple of the cache line size. -/
theorem cache_aligned_alloc_eq (addr : Nat) (h : addr + 63 < 2 ^ 64) :
    CACHE_ALIGNED_ALLOC addr = 64 * ((addr + 63) / 64) := by
  show (addr + 63) % 2 ^ 64 &&& (2 ^ 64 - 64) = 64 * ((addr + 63) / 64)
  rw [Nat.mod_eq_of_lt h]
  exact land_align _ h

/-- While a slot's flag is set and no release happens, every claim in a
trace fails. -/
theorem successfulClaims_of_owned (mid : List SlotEvent) :
    ∀ s : SlotState, s.owned = true → SlotEvent.release ∉ mid →
      successfulClaims s mid = [] := by
  induction mid with
  | nil => intro s _ _; rfl
  | cons e es ih =>
    intro s hs hmem
    cases e with
    | claim t =>
      have hnext : SlotEvent.release ∉ es := fun h =>
        hmem (List.mem_cons_of_mem _ h)
      simp only [successfulClaims, applyEvent, hs]
      exact ih _ rfl hnext
    | release => exact absurd (List.mem_cons_self _ _) hmem

/-- The spec sortedness invariant restricts to the tail. -/
theorem sortedUnmarked_tail (n : SkipNode) (rest : List SkipNode)
    (hs : sortedUnmarked (n :: rest)) : sortedUnmarked rest := by
  unfold sortedUnmarked at hs ⊢
  rw [List.filter_cons] at hs
  by_cases hm : (!n.marked) = true
  · rw [if_pos hm] at hs
    exact (List.pairwise_cons.mp hs).2
  · rw [if_neg hm] at hs
    exact hs

/-- Under the spec sortedness invariant, an unmarked head key is below
every unmarked key in the tail. -/
theorem sortedUnmarked_head_lt (n : SkipNode) (rest : List SkipNode)
    (hs : sortedUnmarked (n :: rest)) (hm : n.marked = false)
    (m : SkipNode) (hmem : m ∈ rest) (hmm : m.marked = false) :
    n.key < m.key := by
  unfold sortedUnmarked at hs
  rw [List.filter_cons] at hs
  rw [if_pos (by simp [hm])] at hs
  exact (List.pairwise_cons.mp hs).1 m (List.mem_filter.mpr ⟨hmem, by simp [hmm]⟩)

/-- `Find` returns `some v` exactly when an unmarked node with the target
key and value `v` is in the (sorted) list. -/
theorem find_some_iff (k v : Nat) :
    ∀ l : List SkipNode, sortedUnmarked l →
      (Find k l = some v ↔
        ∃ n, n ∈ l ∧ n.marked = false ∧ n.key = k ∧ n.value = v) := by
  intro l
  induction l with
  | nil => intro _; simp [Find]
  | cons n rest ih =>
    intro hs
    have hs' := sortedUnmarked_tail n rest hs
    by_cases hm : n.marked = true
    · rw [show Find k (n :: rest) = Find k rest from by simp [Find, hm]]
      rw [ih hs']
      constructor
      · rintro ⟨m, hmem, hrest⟩
        exact ⟨m, List.mem_cons_of_mem _ hmem, hrest⟩
      · rintro ⟨m, hmem, hmk, hrest⟩
        rcases List.mem_cons.mp hmem with heq | hmem2
        · subst heq; rw [hm] at hmk; simp at hmk
        · exact ⟨m, hmem2, hmk, hrest⟩
    · have hm2 : n.marked = false := by simpa using hm
      rcases lt_trichotomy n.key k with hlt | heq | hgt
      · rw [show Find k (n :: rest) = Find k rest from by simp [Find, hm2, hlt]]
        rw [ih hs']
        constructor
        · rintro ⟨m, hmem, hrest⟩
          exact ⟨m, List.mem_cons_of_mem _ hmem, hrest⟩
        · rintro ⟨m, hmem, hmk, hkey, hval⟩
          rcases List.mem_cons.mp hmem with heq2 | hmem2
          · subst heq2; omega
          · exact ⟨m, hmem2, hmk, hkey, hval⟩
      · rw [show Find k (n :: rest) = some n.value from by simp [Find, hm2, heq]]
        constructor
        · intro hsome
          have hv : n.value = v := by injection hsome
          exact ⟨n, List.mem_cons_self _ _, hm2, heq, hv⟩
        · rintro ⟨m, hmem, hmk, hkey, hval⟩
          rcases List.mem_cons.mp hmem with heq2 | hmem2
          · subst heq2; rw [hval]
          · have := sortedUnmarked_head_lt n rest hs hm2 m hmem2 hmk
            omega
      · have ha1 : ¬(n.key < k) := by omega
        have ha2 : ¬(n.key = k) := by omega
        rw [show Find k (n :: rest) = none from by simp [Find, hm2, ha1, ha2]]
        constructor
        · intro h; simp at h
        · rintro ⟨m, hmem, hmk, hkey, hval⟩
          rcases List.mem_cons.mp hmem with heq2 | hmem2
          · subst heq2; omega
          · have := sortedUnmarked_head_lt n rest hs hm2 m hmem2 hmk
            omega

/-- `Find` returns `none` exactly when no unmarked node with the target
key is in the (sorted) list. -/
theorem find_none_iff (k : Nat) :
    ∀ l : List SkipNode, sortedUnmarked l →
      (Find k l = none ↔ ∀ n ∈ l, n.marked = false → n.key ≠ k) := by
  intro l
  induction l with
  | nil => intro _; simp [Find]
  | cons n rest ih =>
    intro hs
    have hs' := sortedUnmarked_tail n rest hs
    by_cases hm : n.marked = true
    · rw [show Find k (n :: rest) = Find k rest from by simp [Find, hm]]
      rw [ih hs']
      constructor
      · intro h m hmem hmk
        rcases List.mem_cons.mp hmem with heq | hmem2
        · subst heq; rw [hm] at hmk; simp at hmk
        · exact h m hmem2 hmk
      · intro h m hmem hmk
        exact h m (List.mem_cons_of_mem _ hmem) hmk
    · have hm2 : n.marked = false := by simpa using hm
      rcases lt_trichotomy n.key k with hlt | heq | hgt
      · rw [show Find k (n :: rest) = Find k rest from by simp [Find, hm2, hlt]]
        rw [ih hs']
        constructor
        · intro h m hmem hmk
          rcases List.mem_cons.mp hmem with heq2 | hmem2
          · subst heq2; omega
          · exact h m hmem2 hmk
        · intro h m hmem hmk
          exact h m (List.mem_cons_of_mem _ hmem) hmk
      · rw [show Find k (n :: rest) = some n.value from by simp [Find, hm2, heq]]
        constructor
        · intro h; simp at h
        · intro h
          exact absurd heq (h n (List.mem_cons_self _ _) hm2)
      · have ha1 : ¬(n.key < k) := by omega
        have ha2 : ¬(n.key = k) := by omega
        rw [show Find k (n :: rest) = none from by simp [Find, hm2, ha1, ha2]]
        constructor
        · intro _ m hmem hmk
          rcases List.mem_cons.mp hmem with heq2 | hmem2
          · subst heq2; omega
          · have := sortedUnmarked_head_lt n rest hs hm2 m hmem2 hmk
            omega
        · intro _; rfl

/-!  ## Claim theorems -/

/-- C1: the claim says the slot walk in `GetCurrentThreadState` visits
every slot at most once and terminates after exhausting the finite list.
The source loop body never advances the cursor, so on a list whose head
slot is owned the walk re-runs `test_and_set` on the same head slot
forever: for every fuel bound, `GetCurrentThreadState` fails to
terminate, having performed `fuel` many `test_and_set` operations on a
one-slot list.  This refutes the claim at the concrete state
`ownedHeadState`. -/
theorem c1_walk_never_advances (fuel : Nat) (fresh : ThreadState) :
    GetCurrentThreadState fuel fresh ownedHeadState
      = (.outOfFuel, ownedHeadState, fuel) := by
  show (match walkLoop fuel [ownedSlot] (some 0) 0 with
        | (.claimed p, heap1, tas) =>
            (AcquireOutcome.returned p,
              { ownedHeadState with heap := heap1, tls := some p }, tas)
        | (.listExhausted, heap1, tas) =>
            (.fellOff, { ownedHeadState with heap := heap1 ++ [fresh] }, tas)
        | (.outOfFuel, heap1, tas) =>
            (.outOfFuel, { ownedHeadState with heap := heap1 }, tas)
        | (.stuck, heap1, tas) =>
            (.stuck, { ownedHeadState with heap := heap1 }, tas))
      = (.outOfFuel, ownedHeadState, fuel)
  rw [walkLoop_ownedHead fuel 0, Nat.zero_add]
  rfl

/-- C2: the claim says the allocation path appends the new slot to the
global list with a retrying CAS push, claims it, binds it thread-locally
and returns it.  In the source, after the walk exhausts the list the
function only calls `CACHE_ALIGNED_ALLOC` and then ends: starting from
an empty slot list, the fresh slot is in memory but the list head is
still null, the thread-local binding is still unset, the fresh slot is
unclaimed (`owned = false`), no `test_and_set` ran, and control fell off
the end of the function without returning a slot. -/
theorem c2_alloc_path_drops_slot :
    GetCurrentThreadState 5 freshSlot
        { heap := [], thread_state_head_p := none, tls := none }
      = (.fellOff,
         { heap := [freshSlot], thread_state_head_p := none, tls := none },
         0) := by
  rfl

/-- C3: a thread whose thread-local binding is present gets exactly that
cached slot back; the global state (every slot and the list head) is
unchanged and zero `test_and_set` operations are performed. -/
theorem c3_fast_path_returns_cached (st : GlobalState) (p fuel : Nat)
    (fresh : ThreadState) (h : st.tls = some p) :
    GetCurrentThreadState fuel fresh st = (.returned p, st, 0) := by
  simp [GetCurrentThreadState, h]

/-- C3 witness: concrete fast-path run. -/
theorem c3_fast_path_returns_cached_witness :
    GetCurrentThreadState 3 freshSlot
        { heap := [ownedSlot], thread_state_head_p := some 0, tls := some 0 }
      = (.returned 0,
         { heap := [ownedSlot], thread_state_head_p := some 0, tls := some 0 },
         0) :=
  c3_fast_path_returns_cached
    { heap := [ownedSlot], thread_state_head_p := some 0, tls := some 0 }
    0 3 freshSlot rfl

/-- C4: `ClearOwnedFlag` clears only the `owned` flag of the slot it is
given; `id`, `next_p` and `gc_p` are unchanged, so the slot stays linked
exactly where it was and becomes eligible for reuse. -/
theorem c4_clear_owned_flag_frame (s : ThreadState) :
    (ClearOwnedFlag s).owned = false ∧
    (ClearOwnedFlag s).id = s.id ∧
    (ClearOwnedFlag s).next_p = s.next_p ∧
    (ClearOwnedFlag s).gc_p = s.gc_p :=
  ⟨rfl, rfl, rfl, rfl⟩

/-- C5 counterexample: the claim says allocation failure is the only
fatal condition in the registry.  In the source, `ThreadState::Init`
calls `perror` and `exit(1)` when `pthread_key_create` fails — a fatal
condition that is not an allocation failure — while a failed `malloc`
(null, address 0) makes `CACHE_ALIGNED_ALLOC` silently produce the null
address with no report and no termination. -/
theorem c5_registry_fatal_counterexample :
    Init false { next_id := 0, thread_state_head_p := none, inited := false }
      = .fatalExit 1 ∧
    CACHE_ALIGNED_ALLOC 0 = 0 := by
  constructor
  · rfl
  · rw [cache_aligned_alloc_eq 0 (by norm_num)]

/-- C5 amended: in the registry (once not yet initialized),
`pthread_key_create` failure — not allocation failure — is the condition
that is reported and terminates the process (`perror`; `exit(1)`);
allocation failure is undetected: the macro maps a failed `malloc`
(null) to a null result without reporting or terminating. -/
theorem c5_registry_fatal_amended (g : RegistryGlobals) (ok : Bool)
    (h : g.inited = false) :
    (Init ok g = .fatalExit 1 ↔ ok = false) ∧ CACHE_ALIGNED_ALLOC 0 = 0 := by
  constructor
  · cases ok <;> simp [Init, h]
  · rw [cache_aligned_alloc_eq 0 (by norm_num)]

/-- C5 amended witness: concrete failing key creation on fresh globals. -/
theorem c5_registry_fatal_amended_witness :
    (Init false { next_id := 0, thread_state_head_p := none, inited := false }
        = .fatalExit 1 ↔ false = false) ∧
    CACHE_ALIGNED_ALLOC 0 = 0 :=
  c5_registry_fatal_amended
    { next_id := 0, thread_state_head_p := none, inited := false } false rfl

/-- C6: the claim says `EnterCritical` records on the slot that the
thread is traversing and stamps the observed epoch.  The source body is
empty: the call is the identity on the thread state and the global
state, recording nothing (and `ThreadState` has no traversal or epoch
field to record into). -/
theorem c6_enter_critical_records_nothing (s : ThreadState) (g : GlobalState) :
    EnterCritical s g = (s, g) :=
  rfl

/-- C7: whenever `malloc` succeeds and the malloc'd block of
`s + 2 * CACHE_LINE_SIZE` bytes fits in the 64-bit address space, the
address computed by `CACHE_ALIGNED_ALLOC` is a multiple of
`CACHE_LINE_SIZE` and the `s` bytes starting there lie inside the
malloc'd block. -/
theorem c7_cache_aligned_alloc_in_block (addr s : Nat) (_hsucc : 0 < addr)
    (hfit : addr + (s + 2 * CACHE_LINE_SIZE) ≤ ULONG_MOD) :
    CACHE_ALIGNED_ALLOC addr % CACHE_LINE_SIZE = 0 ∧
    addr ≤ CACHE_ALIGNED_ALLOC addr ∧
    CACHE_ALIGNED_ALLOC addr + s ≤ addr + (s + 2 * CACHE_LINE_SIZE) := by
  have hbig : ULONG_MOD = 18446744073709551616 := by
    unfold ULONG_MOD; norm_num
  simp only [CACHE_LINE_SIZE, hbig] at hfit ⊢
  have h1 : addr + 63 < 2 ^ 64 := by
    have : (2 : Nat) ^ 64 = 18446744073709551616 := by norm_num
    omega
  rw [cache_aligned_alloc_eq addr h1]
  refine ⟨by omega, by omega, by omega⟩

/-- C7 witness: a concrete successful malloc address and size. -/
theorem c7_cache_aligned_alloc_in_block_witness :
    CACHE_ALIGNED_ALLOC 100 % CACHE_LINE_SIZE = 0 ∧
    100 ≤ CACHE_ALIGNED_ALLOC 100 ∧
    CACHE_ALIGNED_ALLOC 100 + 1 ≤ 100 + (1 + 2 * CACHE_LINE_SIZE) :=
  c7_cache_aligned_alloc_in_block 100 1 (by norm_num)
    (by unfold CACHE_LINE_SIZE ULONG_MOD; norm_num)

/-- C8: on a bottom level satisfying the spec sortedness invariant,
`Find(key)` returns the stored value exactly when a logically present
(unmarked) node with that key exists, and not-found (`none`) exactly
when no unmarked node carries the key. -/
theorem c8_find_correct (l : List SkipNode) (k v : Nat)
    (hs : sortedUnmarked l) :
    (Find k l = some v ↔
      ∃ n, n ∈ l ∧ n.marked = false ∧ n.key = k ∧ n.value = v) ∧
    (Find k l = none ↔ ∀ n ∈ l, n.marked = false → n.key ≠ k) :=
  ⟨find_some_iff k v l hs, find_none_iff k l hs⟩

/-- C8 witness: concrete three-node list with a marked middle node. -/
theorem c8_find_correct_witness :
    (Find 8 demoList = some 80 ↔
      ∃ n, n ∈ demoList ∧ n.marked = false ∧ n.key = 8 ∧ n.value = 80) ∧
    (Find 8 demoList = none ↔
      ∀ n ∈ demoList, n.marked = false → n.key ≠ 8) :=
  c8_find_correct demoList 8 80 (by decide)

/-- C9: from an unowned slot, a thread's `test_and_set` claim succeeds
and installs it as owner; afterwards, along any trace of further atomic
events containing no release, every claim (by any thread) fails — two
threads never own the slot at once. -/
theorem c9_slot_mutual_exclusion (s : SlotState) (t : Nat)
    (mid : List SlotEvent) (hfree : s.owned = false)
    (hnorel : SlotEvent.release ∉ mid) :
    applyEvent s (.claim t) = ({ owned := true, owner := some t }, true) ∧
    successfulClaims { owned := true, owner := some t } mid = [] := by
  constructor
  · simp [applyEvent, hfree]
  · exact successfulClaims_of_owned mid _ rfl hnorel

/-- C9 witness: thread 0 claims a free slot, then claims by threads 1
and 2 both fail. -/
theorem c9_slot_mutual_exclusion_witness :
    applyEvent { owned := false, owner := none } (.claim 0)
      = ({ owned := true, owner := some 0 }, true) ∧
    successfulClaims { owned := true, owner := some 0 }
        [.claim 1, .claim 2] = [] :=
  c9_slot_mutual_exclusion { owned := false, owner := none } 0
    [.claim 1, .claim 2] rfl (by decide)

/-- C10: `ThreadState::Init` requires `inited = false` (a second call
fails the assertion), and when that holds and `pthread_key_create`
succeeds it finishes with `next_id = 0`, `thread_state_head_p = nullptr`
and `inited = true`. -/
theorem c10_init_spec (g : RegistryGlobals) (ok : Bool) :
    (g.inited = true → Init ok g = .assertionFailure) ∧
    (g.inited = false → ok = true →
      Init ok g
        = .ok { next_id := 0, thread_state_head_p := none, inited := true }) := by
  constructor
  · intro h; simp [Init, h]
  · intro h hok; simp [Init, h, hok]

/-- C10 witness: a second call fails the assertion; a first call with a
succeeding `pthread_key_create` initializes the globals. -/
theorem c10_init_spec_witness :
    Init true { next_id := 7, thread_state_head_p := some 2, inited := true }
      = .assertionFailure ∧
    Init true { next_id := 7, thread_state_head_p := some 2, inited := false }
      = .ok { next_id := 0, thread_state_head_p := none, inited := true } :=
  ⟨(c10_init_spec { next_id := 7, thread_state_head_p := some 2, inited := true }
      true).1 rfl,
   (c10_init_spec { next_id := 7, thread_state_head_p := some 2, inited := false }
      true).2 rfl rfl⟩

end RotateSkiplist
